import Mathlib

/-!
Shallow embedding of `client/appengine_devices.go` from the astarte-go
repository, together with the pieces of the client package that the file
uses (the device-list paginator, the identifier resolver and the generic
HTTP-JSON collaborator).  Go strings become `String`, Go `int` becomes
`Int`, Go errors become `Option String` (`none` = nil error) or
`Except String`, and JSON payloads become the `JValue` inductive.
The Go standard-library functions `path.Join`/`path.Clean` are embedded
faithfully, including path cleaning.
-/

namespace AstarteGo

/-- JSON values, as produced by Go's `encoding/json` on the payload maps
used in this file.  `null` is a distinct value, not an empty string. -/
inductive JValue where
  | null : JValue
  | bool : Bool → JValue
  | str : String → JValue
  | obj : List (String × JValue) → JValue

/-- `DeviceIdentifierType` represents what kind of identifier is used for
identifying a Device (Go: an `int` enum with three constants). -/
inductive DeviceIdentifierType where
  | autodiscoverDeviceIdentifier : DeviceIdentifierType
  | astarteDeviceID : DeviceIdentifierType
  | astarteDeviceAlias : DeviceIdentifierType
deriving DecidableEq, Repr

/-- Modelled from the spec: `DeviceDetails` is the server-owned projection
`\x7bdevice_id, aliases: \x7btag: string\x7d, metadata: \x7bkey: string\x7d,
credentials_inhibited: bool\x7d` (the Go struct is declared outside this
excerpt). Maps become association lists. -/
structure DeviceDetails where
  deviceID : String
  aliases : List (String × String)
  metadata : List (String × String)
  credentialsInhibited : Bool
deriving DecidableEq, Repr

/-- Modelled from the spec: `DevicesStats` is the body returned by the
stats endpoint `GET /v1/\x7brealm\x7d/stats/devices`; its field layout is
not given in the excerpt, so it is kept as an opaque record of counters. -/
structure DevicesStats where
  totalDevices : Int
  connectedDevices : Int
deriving DecidableEq, Repr

/-- The zero value of `DeviceDetails`, what Go's decode target holds when
the collaborator fails before filling it. -/
def emptyDeviceDetails : DeviceDetails :=
  { deviceID := "", aliases := [], metadata := [], credentialsInhibited := false }

/-- The zero value of `DevicesStats`. -/
def emptyDevicesStats : DevicesStats :=
  { totalDevices := 0, connectedDevices := 0 }

/-- Go's `url.Values`, restricted to single-valued keys as used here:
an association list from query-parameter name to value. -/
abbrev Values := List (String × String)

/-- Lookup of a query parameter (Go `url.Values.Get`). -/
def valuesGet (q : Values) (key : String) : Option String :=
  (q.find? (fun kv => kv.1 = key)).map (fun kv => kv.2)

/-- Replacement of a query parameter (Go `url.Values.Set`). -/
def valuesSet (q : Values) (key val : String) : Values :=
  (key, val) :: q.filter (fun kv => ¬ kv.1 = key)

/-! ### Go's `path.Clean` / `path.Join`

`path.Join` joins its arguments with a slash and then applies `path.Clean`:
repeated slashes collapse, `.` segments vanish, `..` segments remove the
preceding segment (and vanish at the root of a rooted path).  We implement
the standard segment-stack formulation over `List Char`. -/

/-- Split a character list into slash-separated segments; always returns a
non-empty list, and empty segments are kept (they are dropped by cleaning). -/
def splitSegs : List Char → List (List Char)
  | [] => [[]]
  | c :: rest =>
    if c = '/' then [] :: splitSegs rest
    else
      match splitSegs rest with
      | [] => [[c]]
      | s :: ss => (c :: s) :: ss

/-- One step of `path.Clean`'s segment processing.  `stack` is the list of
output segments in reverse order. -/
def cleanStep (rooted : Bool) (stack : List (List Char)) (seg : List Char) : List (List Char) :=
  if seg = [] ∨ seg = ['.'] then stack
  else if seg = ['.', '.'] then
    match stack with
    | [] => if rooted then [] else [['.', '.']]
    | top :: rest => if top = ['.', '.'] then seg :: top :: rest else rest
  else seg :: stack

/-- Render cleaned segments back into a character list, slash-separated. -/
def joinSegs : List (List Char) → List Char
  | [] => []
  | [s] => s
  | s :: rest => s ++ '/' :: joinSegs rest

/-- `path.Clean` on a character list. -/
def pathCleanChars (cs : List Char) : List Char :=
  if cs = [] then ['.']
  else
    let rooted := cs.head? = some '/'
    let stack := (splitSegs cs).foldl (cleanStep rooted) []
    let body := joinSegs stack.reverse
    if rooted then '/' :: body
    else if body = [] then ['.'] else body

/-- Go's `path.Clean`. -/
def pathClean (p : String) : String := String.mk (pathCleanChars p.data)

/-- Go's `path.Join` on two elements: empty elements are ignored, and the
non-empty join is cleaned. -/
def pathJoin (a b : String) : String :=
  if a = "" then (if b = "" then "" else pathClean b) else pathClean (a ++ "/" ++ b)

/-! ### The HTTP-JSON collaborator and the service -/

/-- Modelled from the spec: the generic HTTP-JSON collaborator (the Go
`Client` with `genericJSONDataAPIGET` / `genericJSONDataAPIPatch` and the
paginated collection GET, all declared outside this excerpt).  Each field
takes the request URL and the expected success status code and either
returns the decoded body or fails with a transport/status/decode error.
The decode targets differ per call site, hence one field per target shape. -/
structure Client where
  getCollection : String → Nat → Int → Option String → Except String (List String × Option String)
  getDevice : String → Nat → Except String DeviceDetails
  getStringList : String → Nat → Except String (List String)
  getStats : String → Nat → Except String DevicesStats
  patchJSON : String → JValue → Nat → Option String

/-- The `AppEngineService`: its AppEngine base URL (we keep the path
component, the only part the excerpt manipulates) and its collaborator. -/
structure AppEngineService where
  appEngineURL : String
  client : Client

/-- Modelled from the spec: the canonical-ID shape test used by the
autodetect heuristic (`resolveDeviceIdentifierType` is declared outside
this excerpt): a canonical Astarte device ID has a fixed length (22
characters, the URL-safe base64 encoding of a 128-bit value) and draws
only on the URL-safe base64 alphabet. -/
def isBase64URLChar (c : Char) : Bool :=
  ('A' ≤ c && c ≤ 'Z') || ('a' ≤ c && c ≤ 'z') || ('0' ≤ c && c ≤ '9') || c = '-' || c = '_'

/-- Modelled from the spec: structural recognizer for the canonical device
ID shape (fixed length and encoding alphabet). -/
def isCanonicalDeviceID (s : String) : Bool :=
  s.length == 22 && s.data.all isBase64URLChar

/-- Modelled from the spec: the identifier resolver.  An explicit declared
type is returned unchanged without validation; `autodiscover` classifies by
the canonical-ID shape, anything not matching is an alias. -/
def resolveDeviceIdentifierType (deviceIdentifier : String)
    (t : DeviceIdentifierType) : DeviceIdentifierType :=
  match t with
  | .autodiscoverDeviceIdentifier =>
    if isCanonicalDeviceID deviceIdentifier then .astarteDeviceID else .astarteDeviceAlias
  | other => other

/-- Modelled from the spec: the `\x7bidType\x7d/\x7bidentifier\x7d` path
segment of the device-detail endpoints (`devicePath` is declared outside
this excerpt): canonical IDs go under `devices/`, aliases under a
distinct by-alias collection. -/
def devicePath (deviceIdentifier : String) (t : DeviceIdentifierType) : String :=
  match t with
  | .astarteDeviceAlias => "devices-by-alias/" ++ deviceIdentifier
  | _ => "devices/" ++ deviceIdentifier

/-! ### The device list paginator -/

/-- `DeviceListPaginator`: base collection URL, current query parameters
(notably the opaque continuation token), the page-size bound, the
collaborator, and the has-next flag.  Field names follow the composite
literal in `GetDeviceListPaginator`. -/
structure DeviceListPaginator where
  baseURL : String
  nextQuery : Values
  pageSize : Int
  client : Client
  hasNextPage : Bool

/-- Modelled from the spec: `HasNextPage` is a pure read of the cursor's
has-next flag; it performs no fetch (the method body is outside this
excerpt). -/
def DeviceListPaginator.HasNextPage (p : DeviceListPaginator) : Bool := p.hasNextPage

/-- Modelled from the spec: `GetNextPage` (the method body is outside this
excerpt).  It issues one bounded GET against the collection endpoint with
the current query parameters (the continuation token) and the configured
page-size bound, expecting status 200.  On success it returns the decoded
page; a returned continuation token is loaded into the query state, and an
absent token makes the cursor terminal.  On failure the state is left
unchanged and the error is returned. -/
def DeviceListPaginator.GetNextPage (p : DeviceListPaginator) :
    Except String (List String) × DeviceListPaginator :=
  match p.client.getCollection p.baseURL 200 p.pageSize (valuesGet p.nextQuery "from_token") with
  | .error e => (.error e, p)
  | .ok (page, some tok) => (.ok page, { p with nextQuery := valuesSet p.nextQuery "from_token" tok })
  | .ok (page, none) => (.ok page, { p with hasNextPage := false })

/-- `GetDeviceListPaginator` returns a Paginator for all the Devices in the
realm.  (Go re-parses `appEngineURL.String()`, an operation that cannot
fail on a URL's own serialization, so the dead error branch is dropped.) -/
def AppEngineService.GetDeviceListPaginator (s : AppEngineService) (realm : String)
    (pageSize : Int) : DeviceListPaginator :=
  { baseURL := pathJoin s.appEngineURL ("/v1/" ++ realm ++ "/devices")
    nextQuery := []
    pageSize := pageSize
    client := s.client
    hasNextPage := true }

/-- Modelled from the spec: the default page size used by `ListDevices`
(the constant is declared outside this excerpt; its value is immaterial
to the properties proved here). -/
def defaultPageSize : Int := 100

/-- The `for hasNext := ...; hasNext; hasNext = ...` loop of `ListDevices`,
with explicit fuel; `none` means the fuel ran out before the loop did. -/
def listDevicesLoop : Nat → DeviceListPaginator → List String →
    Option (List String × Option String)
  | 0, _, _ => none
  | fuel + 1, p, acc =>
    if p.HasNextPage then
      match p.GetNextPage with
      | (.error e, _) => some ([], some e)
      | (.ok page, p') => listDevicesLoop fuel p' (acc ++ page)
    else some (acc, none)

/-- `ListDevices` returns the list of Device IDs for all Devices in the
Realm, by driving a `defaultPageSize` paginator to exhaustion.  Result is
the Go pair (identifier list, error). -/
def AppEngineService.ListDevices (s : AppEngineService) (realm : String) (fuel : Nat) :
    Option (List String × Option String) :=
  listDevicesLoop fuel (s.GetDeviceListPaginator realm defaultPageSize) []

/-- Manually driving a paginator to exhaustion: the list of pages obtained
by calling `HasNextPage`/`GetNextPage` until the flag clears, with explicit
fuel (`none` = fuel ran out, `some (.error e)` = a fetch failed). -/
def drivePages : Nat → DeviceListPaginator → Option (Except String (List (List String)))
  | 0, _ => none
  | fuel + 1, p =>
    if p.HasNextPage then
      match p.GetNextPage with
      | (.error e, _) => some (.error e)
      | (.ok page, p') =>
        match drivePages fuel p' with
        | none => none
        | some (.error e) => some (.error e)
        | some (.ok pages) => some (.ok (page :: pages))
    else some (.ok [])

/-! ### Device accessors -/

/-- `GetDevice` returns the `DeviceDetails` of a single Device in the
Realm (Go returns the zero-valued struct alongside a non-nil error). -/
def AppEngineService.GetDevice (s : AppEngineService) (realm deviceIdentifier : String)
    (deviceIdentifierType : DeviceIdentifierType) : DeviceDetails × Option String :=
  let resolved := resolveDeviceIdentifierType deviceIdentifier deviceIdentifierType
  let callURL := pathJoin s.appEngineURL ("/v1/" ++ realm ++ "/" ++ devicePath deviceIdentifier resolved)
  match s.client.getDevice callURL 200 with
  | .ok d => (d, none)
  | .error e => (emptyDeviceDetails, some e)

/-- `GetDeviceIDFromAlias` returns the Device ID of a device given one of
its aliases. -/
def AppEngineService.GetDeviceIDFromAlias (s : AppEngineService) (realm deviceAlias : String) :
    String × Option String :=
  match s.GetDevice realm deviceAlias .astarteDeviceAlias with
  | (_, some e) => ("", some e)
  | (d, none) => (d.deviceID, none)

/-- `GetDeviceIDFromDeviceIdentifier` returns the DeviceID of a Device
identified with a `deviceIdentifier` of type `deviceIdentifierType`. -/
def AppEngineService.GetDeviceIDFromDeviceIdentifier (s : AppEngineService)
    (realm deviceIdentifier : String) (deviceIdentifierType : DeviceIdentifierType) :
    String × Option String :=
  match resolveDeviceIdentifierType deviceIdentifier deviceIdentifierType with
  | .astarteDeviceAlias => s.GetDeviceIDFromAlias realm deviceIdentifier
  | _ => (deviceIdentifier, none)

/-- `ListDeviceInterfaces` returns the list of Interfaces exposed by the
Device's introspection. -/
def AppEngineService.ListDeviceInterfaces (s : AppEngineService)
    (realm deviceIdentifier : String) (deviceIdentifierType : DeviceIdentifierType) :
    List String × Option String :=
  let resolved := resolveDeviceIdentifierType deviceIdentifier deviceIdentifierType
  let callURL := pathJoin s.appEngineURL
    ("/v1/" ++ realm ++ "/" ++ devicePath deviceIdentifier resolved ++ "/interfaces")
  match s.client.getStringList callURL 200 with
  | .ok l => (l, none)
  | .error e => ([], some e)

/-- `ListDeviceAliases` is an helper to list all aliases of a Device. -/
def AppEngineService.ListDeviceAliases (s : AppEngineService) (realm deviceID : String) :
    List (String × String) × Option String :=
  match s.GetDevice realm deviceID .astarteDeviceID with
  | (_, some e) => ([], some e)
  | (d, none) => (d.aliases, none)

/-- `AddDeviceAlias` adds an Alias to a Device; PATCH body
`\x7b"aliases": \x7btag: value\x7d\x7d`, built on the raw `deviceID`. -/
def AppEngineService.AddDeviceAlias (s : AppEngineService)
    (realm deviceID aliasTag deviceAlias : String) : Option String :=
  let callURL := pathJoin s.appEngineURL ("/v1/" ++ realm ++ "/devices/" ++ deviceID)
  s.client.patchJSON callURL (.obj [("aliases", .obj [(aliasTag, .str deviceAlias)])]) 200

/-- `DeleteDeviceAlias` deletes an Alias from a Device based on the Alias'
tag; the payload carries an explicit JSON `null` (Go uses
`map[string]interface\x7b\x7d` precisely to obtain `null` rather than an
empty string). -/
def AppEngineService.DeleteDeviceAlias (s : AppEngineService)
    (realm deviceID aliasTag : String) : Option String :=
  let callURL := pathJoin s.appEngineURL ("/v1/" ++ realm ++ "/devices/" ++ deviceID)
  s.client.patchJSON callURL (.obj [("aliases", .obj [(aliasTag, .null)])]) 200

/-- `InhibitDevice` sets the Credentials Inhibition state of a Device;
unlike the alias helpers it resolves the identifier type first. -/
def AppEngineService.InhibitDevice (s : AppEngineService) (realm deviceIdentifier : String)
    (deviceIdentifierType : DeviceIdentifierType) (inhibit : Bool) : Option String :=
  let resolved := resolveDeviceIdentifierType deviceIdentifier deviceIdentifierType
  let callURL := pathJoin s.appEngineURL ("/v1/" ++ realm ++ "/" ++ devicePath deviceIdentifier resolved)
  s.client.patchJSON callURL (.obj [("credentials_inhibited", .bool inhibit)]) 200

/-- `GetDevicesStats` returns the `DevicesStats` of a Realm. -/
def AppEngineService.GetDevicesStats (s : AppEngineService) (realm : String) :
    DevicesStats × Option String :=
  let callURL := pathJoin s.appEngineURL ("/v1/" ++ realm ++ "/stats/devices")
  match s.client.getStats callURL 200 with
  | .ok st => (st, none)
  | .error e => (emptyDevicesStats, some e)

/-- `ListDeviceMetadata` is an helper to list all Metadata of a Device. -/
def AppEngineService.ListDeviceMetadata (s : AppEngineService)
    (realm deviceIdentifier : String) (deviceIdentifierType : DeviceIdentifierType) :
    List (String × String) × Option String :=
  match s.GetDevice realm deviceIdentifier deviceIdentifierType with
  | (_, some e) => ([], some e)
  | (d, none) => (d.metadata, none)

/-- `SetDeviceMetadata` sets a Metadata key to a certain value for a
Device. -/
def AppEngineService.SetDeviceMetadata (s : AppEngineService)
    (realm deviceIdentifier : String) (deviceIdentifierType : DeviceIdentifierType)
    (metadataKey metadataValue : String) : Option String :=
  let resolved := resolveDeviceIdentifierType deviceIdentifier deviceIdentifierType
  let callURL := pathJoin s.appEngineURL ("/v1/" ++ realm ++ "/" ++ devicePath deviceIdentifier resolved)
  s.client.patchJSON callURL (.obj [("metadata", .obj [(metadataKey, .str metadataValue)])]) 200

/-- `DeleteDeviceMetadata` deletes a Metadata key and its value from a
Device; again an explicit JSON `null`. -/
def AppEngineService.DeleteDeviceMetadata (s : AppEngineService)
    (realm deviceIdentifier : String) (deviceIdentifierType : DeviceIdentifierType)
    (metadataKey : String) : Option String :=
  let resolved := resolveDeviceIdentifierType deviceIdentifier deviceIdentifierType
  let callURL := pathJoin s.appEngineURL ("/v1/" ++ realm ++ "/" ++ devicePath deviceIdentifier resolved)
  s.client.patchJSON callURL (.obj [("metadata", .obj [(metadataKey, .null)])]) 200

/-! ### Test fixtures: the fixed fake backend of the spec's testable
properties, and an always-failing collaborator -/

/-- Opaque continuation token encoding a start index (unary, so that the
round trip needs no digit parsing: the token is opaque to the client). -/
def natToken (n : Nat) : String := String.mk (List.replicate n 'x')

/-- Decode a continuation token back to a start index; an absent token
means the start of the collection. -/
def tokenVal : Option String → Nat
  | none => 0
  | some s => s.length

/-- The spec's fixed fake backend over a device list: a collection GET
with start token `s` and page size `P` serves the next `P` identifiers of
`devs` and returns a continuation token exactly when devices remain.  The
other collaborator methods are unused by pagination. -/
def fakeClient (devs : List String) : Client :=
  { getCollection := fun _ _ pageSize tok =>
      let s := tokenVal tok
      let pcount := pageSize.toNat
      .ok ((devs.drop s).take pcount,
        if s + pcount < devs.length then some (natToken (s + pcount)) else none)
    getDevice := fun _ _ => .error "unused"
    getStringList := fun _ _ => .error "unused"
    getStats := fun _ _ => .error "unused"
    patchJSON := fun _ _ _ => some "unused" }

/-- A collaborator that fails every call with the same error. -/
def errClient (e : String) : Client :=
  { getCollection := fun _ _ _ _ => .error e
    getDevice := fun _ _ => .error e
    getStringList := fun _ _ => .error e
    getStats := fun _ _ => .error e
    patchJSON := fun _ _ _ => some e }

/-- A sample service over a given collaborator, rooted at `/appengine`. -/
def sampleService (c : Client) : AppEngineService :=
  { appEngineURL := "/appengine", client := c }

end AstarteGo

namespace AstarteGo

/-! ### Helper lemmas relating `listDevicesLoop` and `drivePages` -/

theorem listDevicesLoop_drivePages_ok (fuel : Nat) :
    ∀ (p : DeviceListPaginator) (acc : List String) (pages : List (List String)),
    drivePages fuel p = some (.ok pages) →
    listDevicesLoop fuel p acc = some (acc ++ pages.flatten, none) := by
  induction fuel with
  | zero => intro p acc pages h; simp [drivePages] at h
  | succ fuel ih =>
    intro p acc pages h
    unfold drivePages at h
    unfold listDevicesLoop
    by_cases hn : p.HasNextPage
    · rw [if_pos hn] at h ⊢
      split at h
      next e p' heq => simp at h
      next page p' heq =>
        split at h
        next hd => simp at h
        next e hd => simp at h
        next rest hd =>
          simp only [Option.some.injEq, Except.ok.injEq] at h
          subst h
          rw [ih p' (acc ++ page) rest hd]
          simp
    · rw [if_neg hn] at h ⊢
      simp only [Option.some.injEq, Except.ok.injEq] at h
      subst h
      simp

theorem listDevicesLoop_error_nil (fuel : Nat) :
    ∀ (p : DeviceListPaginator) (acc l : List String) (e : String),
    listDevicesLoop fuel p acc = some (l, some e) → l = [] := by
  induction fuel with
  | zero => intro p acc l e h; simp [listDevicesLoop] at h
  | succ fuel ih =>
    intro p acc l e h
    unfold listDevicesLoop at h
    by_cases hn : p.HasNextPage
    · rw [if_pos hn] at h
      split at h
      next e' p' heq =>
        simp only [Option.some.injEq, Prod.mk.injEq] at h
        exact h.1.symm
      next page p' heq => exact ih p' (acc ++ page) l e h
    · rw [if_neg hn] at h
      simp at h

theorem listDevicesLoop_drivePages_error (fuel : Nat) :
    ∀ (p : DeviceListPaginator) (acc : List String) (e : String),
    drivePages fuel p = some (.error e) →
    listDevicesLoop fuel p acc = some ([], some e) := by
  induction fuel with
  | zero => intro p acc e h; simp [drivePages] at h
  | succ fuel ih =>
    intro p acc e h
    unfold drivePages at h
    unfold listDevicesLoop
    by_cases hn : p.HasNextPage
    · rw [if_pos hn] at h ⊢
      split at h
      next e' p' heq =>
        simp only [Option.some.injEq, Except.error.injEq] at h
        subst h; rfl
      next page p' heq =>
        split at h
        next hd => simp at h
        next e' hd =>
          simp only [Option.some.injEq, Except.error.injEq] at h
          subst h
          exact ih p' (acc ++ page) e' hd
        next rest hd => simp at h
    · rw [if_neg hn] at h
      simp at h

/-- C3: if any page fetch inside `ListDevices` fails, `ListDevices` returns
an empty identifier list alongside the error (never a partial result), and
the error is exactly the one the first failing fetch of a manual drive
produces. -/
theorem C3_listDevices_error_discards_partial :
    (∀ (s : AppEngineService) (realm : String) (fuel : Nat) (l : List String) (e : String),
      s.ListDevices realm fuel = some (l, some e) → l = []) ∧
    (∀ (s : AppEngineService) (realm : String) (fuel : Nat) (e : String),
      drivePages fuel (s.GetDeviceListPaginator realm defaultPageSize) = some (.error e) →
      s.ListDevices realm fuel = some ([], some e)) := by
  constructor
  · intro s realm fuel l e h
    exact listDevicesLoop_error_nil fuel _ [] l e h
  · intro s realm fuel e h
    exact listDevicesLoop_drivePages_error fuel _ [] e h

/-- Witness for C3 at a concrete always-failing backend. -/
theorem C3_witness :
    (sampleService (errClient "boom")).ListDevices "r" 3 = some ([], some "boom") ∧
    ([] : List String) = [] :=
  ⟨rfl, C3_listDevices_error_discards_partial.1 (sampleService (errClient "boom")) "r" 3 [] "boom" rfl⟩

/-- C4: on an all-successful manual drive, `ListDevices` returns exactly
the concatenation of the manually fetched pages, in page-arrival order. -/
theorem C4_listDevices_eq_manual_concat :
    ∀ (s : AppEngineService) (realm : String) (fuel : Nat) (pages : List (List String)),
      drivePages fuel (s.GetDeviceListPaginator realm defaultPageSize) = some (.ok pages) →
      s.ListDevices realm fuel = some (pages.flatten, none) := by
  intro s realm fuel pages h
  have h2 := listDevicesLoop_drivePages_ok fuel _ [] pages h
  simpa [AppEngineService.ListDevices] using h2

/-- Witness for C4 over a three-device fake backend. -/
theorem C4_witness :
    (sampleService (fakeClient ["a", "b", "c"])).ListDevices "r" 3 = some (["a", "b", "c"], none) :=
  C4_listDevices_eq_manual_concat (sampleService (fakeClient ["a", "b", "c"])) "r" 3
    [["a", "b", "c"]] rfl

/-- C2: a failed `GetNextPage` leaves the cursor exactly as it was:
the state is unchanged, `HasNextPage` answers the same, and an immediate
retry against the identical backend produces the identical output. -/
theorem C2_failed_getNextPage_preserves_state :
    ∀ (p : DeviceListPaginator) (e : String),
      p.GetNextPage.1 = .error e →
      p.GetNextPage.2 = p ∧
      p.GetNextPage.2.HasNextPage = p.HasNextPage ∧
      p.GetNextPage.2.GetNextPage = p.GetNextPage := by
  intro p e h
  have h2 : p.GetNextPage.2 = p := by
    unfold DeviceListPaginator.GetNextPage at h ⊢
    generalize hg : p.client.getCollection p.baseURL 200 p.pageSize
      (valuesGet p.nextQuery "from_token") = r at h ⊢
    rcases r with e' | ⟨page, tok⟩
    · rfl
    · rcases tok with _ | t <;> simp at h
  exact ⟨h2, by rw [h2], by rw [h2]⟩

/-- Witness for C2 at a concrete always-failing backend. -/
theorem C2_witness :
    ((sampleService (errClient "boom")).GetDeviceListPaginator "r" 2).GetNextPage.1 =
      .error "boom" ∧
    ((sampleService (errClient "boom")).GetDeviceListPaginator "r" 2).GetNextPage.2 =
      (sampleService (errClient "boom")).GetDeviceListPaginator "r" 2 :=
  ⟨rfl, (C2_failed_getNextPage_preserves_state
    ((sampleService (errClient "boom")).GetDeviceListPaginator "r" 2) "boom" rfl).1⟩

/-- C6: the page-size bound is fixed at construction time and no
`GetNextPage` call (succeeding or failing) ever modifies it; `HasNextPage`
is a pure read and returns no state at all. -/
theorem C6_pageSize_immutable :
    (∀ (s : AppEngineService) (realm : String) (P : Int),
      (s.GetDeviceListPaginator realm P).pageSize = P) ∧
    (∀ p : DeviceListPaginator, p.GetNextPage.2.pageSize = p.pageSize) := by
  constructor
  · intro s realm P; rfl
  · intro p
    unfold DeviceListPaginator.GetNextPage
    generalize p.client.getCollection p.baseURL 200 p.pageSize
      (valuesGet p.nextQuery "from_token") = r
    rcases r with e' | ⟨page, tok⟩
    · rfl
    · rcases tok with _ | t <;> rfl

/-- C7: an explicit declared identifier type is trusted unchanged without
validation; `GetDeviceIDFromDeviceIdentifier` with `AstarteDeviceID`
returns the identifier itself with no error independently of the
collaborator (no server fetch), while `AstarteDeviceAlias` routes through
the alias lookup. -/
theorem C7_explicit_identifier_type_trusted :
    (∀ ident : String,
      resolveDeviceIdentifierType ident .astarteDeviceID = .astarteDeviceID) ∧
    (∀ ident : String,
      resolveDeviceIdentifierType ident .astarteDeviceAlias = .astarteDeviceAlias) ∧
    (∀ (s : AppEngineService) (realm ident : String),
      s.GetDeviceIDFromDeviceIdentifier realm ident .astarteDeviceID = (ident, none)) ∧
    (∀ (base : String) (c1 c2 : Client) (realm ident : String),
      (AppEngineService.mk base c1).GetDeviceIDFromDeviceIdentifier realm ident .astarteDeviceID =
      (AppEngineService.mk base c2).GetDeviceIDFromDeviceIdentifier realm ident .astarteDeviceID) ∧
    (∀ (s : AppEngineService) (realm ident : String),
      s.GetDeviceIDFromDeviceIdentifier realm ident .astarteDeviceAlias =
      s.GetDeviceIDFromAlias realm ident) :=
  ⟨fun _ => rfl, fun _ => rfl, fun _ _ _ => rfl, fun _ _ _ _ _ => rfl, fun _ _ _ => rfl⟩

/-- C8: the alias PATCH bodies are exactly
`\x7b"aliases": \x7btag: value\x7d\x7d` for set and
`\x7b"aliases": \x7btag: null\x7d\x7d` for delete, mirrored for metadata,
and a delete payload is never equal to setting the key to the empty
string. -/
theorem C8_patch_payload_shapes :
    (∀ (s : AppEngineService) (realm deviceID tag v : String), ∃ u,
      s.AddDeviceAlias realm deviceID tag v =
        s.client.patchJSON u (.obj [("aliases", .obj [(tag, .str v)])]) 200) ∧
    (∀ (s : AppEngineService) (realm deviceID tag : String), ∃ u,
      s.DeleteDeviceAlias realm deviceID tag =
        s.client.patchJSON u (.obj [("aliases", .obj [(tag, .null)])]) 200) ∧
    (∀ (s : AppEngineService) (realm ident : String) (t : DeviceIdentifierType) (k v : String), ∃ u,
      s.SetDeviceMetadata realm ident t k v =
        s.client.patchJSON u (.obj [("metadata", .obj [(k, .str v)])]) 200) ∧
    (∀ (s : AppEngineService) (realm ident : String) (t : DeviceIdentifierType) (k : String), ∃ u,
      s.DeleteDeviceMetadata realm ident t k =
        s.client.patchJSON u (.obj [("metadata", .obj [(k, .null)])]) 200) ∧
    (∀ tag : String, JValue.obj [("aliases", .obj [(tag, .null)])] ≠
      JValue.obj [("aliases", .obj [(tag, .str "")])]) ∧
    (∀ k : String, JValue.obj [("metadata", .obj [(k, .null)])] ≠
      JValue.obj [("metadata", .obj [(k, .str "")])]) := by
  refine ⟨fun s realm d tag v => ⟨_, rfl⟩, fun s realm d tag => ⟨_, rfl⟩,
    fun s realm i t k v => ⟨_, rfl⟩, fun s realm i t k => ⟨_, rfl⟩,
    fun tag h => ?_, fun k h => ?_⟩ <;> simp at h

/-- Witness for C8's null-versus-empty-string distinction at tag `t1`. -/
theorem C8_witness :
    JValue.obj [("aliases", JValue.obj [("t1", JValue.null)])] ≠
      JValue.obj [("aliases", JValue.obj [("t1", JValue.str "")])] :=
  C8_patch_payload_shapes.2.2.2.2.1 "t1"

/-- C9: `AddDeviceAlias` and `DeleteDeviceAlias` build
`/v1/\x7brealm\x7d/devices/\x7bdeviceID\x7d` directly from the raw
`deviceID` argument (no identifier-type resolution), while `InhibitDevice`
resolves the type and, on an alias-classified identifier, targets the
distinct by-alias collection; the two constructed paths always differ. -/
theorem C9_alias_ops_skip_resolution :
    (∀ (s : AppEngineService) (realm deviceID tag v : String), ∃ pl,
      s.AddDeviceAlias realm deviceID tag v =
        s.client.patchJSON (pathJoin s.appEngineURL ("/v1/" ++ realm ++ "/devices/" ++ deviceID)) pl 200) ∧
    (∀ (s : AppEngineService) (realm deviceID tag : String), ∃ pl,
      s.DeleteDeviceAlias realm deviceID tag =
        s.client.patchJSON (pathJoin s.appEngineURL ("/v1/" ++ realm ++ "/devices/" ++ deviceID)) pl 200) ∧
    (∀ (s : AppEngineService) (realm ident : String) (b : Bool),
      resolveDeviceIdentifierType ident .autodiscoverDeviceIdentifier = .astarteDeviceAlias →
      ∃ pl, s.InhibitDevice realm ident .autodiscoverDeviceIdentifier b =
        s.client.patchJSON
          (pathJoin s.appEngineURL ("/v1/" ++ realm ++ "/" ++ ("devices-by-alias/" ++ ident))) pl 200) ∧
    (∀ realm ident : String,
      ("/v1/" ++ realm ++ "/" ++ ("devices-by-alias/" ++ ident) : String) ≠
        "/v1/" ++ realm ++ "/devices/" ++ ident) := by
  refine ⟨fun s realm d tag v => ⟨_, rfl⟩, fun s realm d tag => ⟨_, rfl⟩,
    fun s realm ident b h => ?_, fun realm ident h => ?_⟩
  · refine ⟨JValue.obj [("credentials_inhibited", JValue.bool b)], ?_⟩
    simp only [AppEngineService.InhibitDevice, h, devicePath]
  · have hl := congrArg String.length h
    simp only [String.length_append] at hl
    have e1 : ("/v1/" : String).length = 4 := rfl
    have e2 : ("/" : String).length = 1 := rfl
    have e3 : ("devices-by-alias/" : String).length = 17 := rfl
    have e4 : ("/devices/" : String).length = 9 := rfl
    omega

/-- Witness for C9's resolution conjunct at the alias `my-alias`. -/
theorem C9_witness :
    ∃ pl, (sampleService (errClient "E")).InhibitDevice "r" "my-alias"
        .autodiscoverDeviceIdentifier true =
      (errClient "E").patchJSON
        (pathJoin "/appengine" ("/v1/" ++ "r" ++ "/" ++ ("devices-by-alias/" ++ "my-alias"))) pl 200 :=
  C9_alias_ops_skip_resolution.2.2.1 (sampleService (errClient "E")) "r" "my-alias" true (by decide)

/-- C10: every accessor and mutation of the file hands the collaborator
200 as the sole expected success status, performs exactly one collaborator
call, and returns the collaborator's error (any non-200 status or decode
failure) to the caller unmodified. -/
theorem C10_expects_200_and_propagates_errors :
    (∀ (s : AppEngineService) (realm ident : String) (t : DeviceIdentifierType), ∃ u,
      s.GetDevice realm ident t = (match s.client.getDevice u 200 with
        | .ok d => (d, none) | .error e => (emptyDeviceDetails, some e))) ∧
    (∀ (s : AppEngineService) (realm ident : String) (t : DeviceIdentifierType), ∃ u,
      s.ListDeviceInterfaces realm ident t = (match s.client.getStringList u 200 with
        | .ok l => (l, none) | .error e => ([], some e))) ∧
    (∀ (s : AppEngineService) (realm : String), ∃ u,
      s.GetDevicesStats realm = (match s.client.getStats u 200 with
        | .ok st => (st, none) | .error e => (emptyDevicesStats, some e))) ∧
    (∀ (s : AppEngineService) (realm deviceID tag v : String), ∃ u pl,
      s.AddDeviceAlias realm deviceID tag v = s.client.patchJSON u pl 200) ∧
    (∀ (s : AppEngineService) (realm deviceID tag : String), ∃ u pl,
      s.DeleteDeviceAlias realm deviceID tag = s.client.patchJSON u pl 200) ∧
    (∀ (s : AppEngineService) (realm ident : String) (t : DeviceIdentifierType) (b : Bool), ∃ u pl,
      s.InhibitDevice realm ident t b = s.client.patchJSON u pl 200) ∧
    (∀ (s : AppEngineService) (realm ident : String) (t : DeviceIdentifierType) (k v : String), ∃ u pl,
      s.SetDeviceMetadata realm ident t k v = s.client.patchJSON u pl 200) ∧
    (∀ (s : AppEngineService) (realm ident : String) (t : DeviceIdentifierType) (k : String), ∃ u pl,
      s.DeleteDeviceMetadata realm ident t k = s.client.patchJSON u pl 200) ∧
    (∀ p : DeviceListPaginator, ∃ u q,
      p.GetNextPage = (match p.client.getCollection u 200 p.pageSize q with
        | .error e => (.error e, p)
        | .ok (page, some tok) =>
          (.ok page, { p with nextQuery := valuesSet p.nextQuery "from_token" tok })
        | .ok (page, none) => (.ok page, { p with hasNextPage := false }))) :=
  ⟨fun s realm i t => ⟨_, rfl⟩, fun s realm i t => ⟨_, rfl⟩, fun s realm => ⟨_, rfl⟩,
    fun s realm d tag v => ⟨_, _, rfl⟩, fun s realm d tag => ⟨_, _, rfl⟩,
    fun s realm i t b => ⟨_, _, rfl⟩, fun s realm i t k v => ⟨_, _, rfl⟩,
    fun s realm i t k => ⟨_, _, rfl⟩, fun p => ⟨_, _, rfl⟩⟩


/-! ### The fixed fake backend: pagination partition (C1) -/
theorem valuesGet_valuesSet (q : Values) (k v : String) :
    valuesGet (valuesSet q k v) k = some v := by
  simp [valuesGet, valuesSet]

theorem natToken_length (n : Nat) : (natToken n).length = n := by
  simp [natToken, String.length]

theorem tokenVal_roundtrip (q : Values) (k : String) (n : Nat) :
    tokenVal (valuesGet (valuesSet q k (natToken n)) k) = n := by
  rw [valuesGet_valuesSet]
  simp [tokenVal, natToken_length]

theorem fake_getNextPage_more (devs : List String) (P : Int) (burl : String) (q : Values)
    (s : Nat) (hs : tokenVal (valuesGet q "from_token") = s)
    (hc : s + P.toNat < devs.length) :
    DeviceListPaginator.GetNextPage ⟨burl, q, P, fakeClient devs, true⟩ =
      (.ok ((devs.drop s).take P.toNat),
        ⟨burl, valuesSet q "from_token" (natToken (s + P.toNat)), P, fakeClient devs, true⟩) := by
  simp [DeviceListPaginator.GetNextPage, fakeClient, hs, hc]

theorem fake_getNextPage_last (devs : List String) (P : Int) (burl : String) (q : Values)
    (s : Nat) (hs : tokenVal (valuesGet q "from_token") = s)
    (hc : ¬ (s + P.toNat < devs.length)) :
    DeviceListPaginator.GetNextPage ⟨burl, q, P, fakeClient devs, true⟩ =
      (.ok ((devs.drop s).take P.toNat), ⟨burl, q, P, fakeClient devs, false⟩) := by
  simp [DeviceListPaginator.GetNextPage, fakeClient, hs, hc]

theorem fakeDrive (devs : List String) (P : Int) (hP : 1 ≤ P) (fuel : Nat) :
    ∀ (burl : String) (q : Values) (s : Nat),
    tokenVal (valuesGet q "from_token") = s →
    s < devs.length → devs.length - s < fuel →
    ∃ pages,
      drivePages fuel ⟨burl, q, P, fakeClient devs, true⟩ = some (.ok pages) ∧
      pages.flatten = devs.drop s ∧
      pages.length = (devs.length - s + P.toNat - 1) / P.toNat ∧
      ∀ pg ∈ pages, pg.length ≤ P.toNat := by
  have hPn : 0 < P.toNat := by omega
  induction fuel with
  | zero => intro burl q s hs hlt hfuel; omega
  | succ fuel ih =>
    intro burl q s hs hlt hfuel
    by_cases hc : s + P.toNat < devs.length
    · obtain ⟨pages', hdrive, hflat, hlen, hbound⟩ :=
        ih burl (valuesSet q "from_token" (natToken (s + P.toNat))) (s + P.toNat)
          (tokenVal_roundtrip q "from_token" (s + P.toNat)) hc (by omega)
      refine ⟨(devs.drop s).take P.toNat :: pages', ?_, ?_, ?_, ?_⟩
      · unfold drivePages
        rw [fake_getNextPage_more devs P burl q s hs hc]
        simp only [DeviceListPaginator.HasNextPage, if_true, hdrive]
      · simp only [List.flatten_cons, hflat]
        rw [show devs.drop (s + P.toNat) = (devs.drop s).drop P.toNat from
          (List.drop_drop P.toNat s devs).symm ▸ rfl]
        exact List.take_append_drop P.toNat (devs.drop s)
      · simp only [List.length_cons, hlen]
        have h1 : devs.length - (s + P.toNat) + P.toNat - 1 = devs.length - s - 1 := by omega
        have h2 : devs.length - s + P.toNat - 1 = (devs.length - s - 1) + P.toNat := by omega
        rw [h1, h2, Nat.add_div_right _ hPn]
      · intro pg hpg
        rcases List.mem_cons.mp hpg with rfl | hmem
        · exact List.length_take_le _ _
        · exact hbound pg hmem
    · obtain ⟨f, rfl⟩ : ∃ f, fuel = f + 1 := ⟨fuel - 1, by omega⟩
      refine ⟨[(devs.drop s).take P.toNat], ?_, ?_, ?_, ?_⟩
      · unfold drivePages
        rw [fake_getNextPage_last devs P burl q s hs hc]
        simp [drivePages, DeviceListPaginator.HasNextPage]
      · have hle : (devs.drop s).length ≤ P.toNat := by
          rw [List.length_drop]; omega
        simp [List.take_of_length_le hle]
      · have hargs : devs.length - s + P.toNat - 1 < (1 + 1) * P.toNat := by omega
        have hargs2 : 1 * P.toNat ≤ devs.length - s + P.toNat - 1 := by omega
        simp only [List.length_cons, List.length_nil]
        exact (Nat.div_eq_of_lt_le hargs2 hargs).symm
      · intro pg hpg
        rcases List.mem_cons.mp hpg with rfl | hmem
        · exact List.length_take_le _ _
        · simp at hmem

/-- C1 (amended: N must be at least 1; over an empty backend the drive to
exhaustion still performs one page fetch, returning an empty page): for
every page size P ≥ 1 and the fixed fake backend over a non-empty device
list, driving the paginator to exhaustion yields exactly the backend's
identifiers in arrival order, partitioned into ceil(N/P) page fetches,
each page holding at most P items. -/
theorem C1_pagination_partition (devs : List String) (base realm : String) (P : Int) (fuel : Nat)
    (hP : 1 ≤ P) (hN : 0 < devs.length) (hfuel : devs.length < fuel) :
    ∃ pages,
      drivePages fuel ((AppEngineService.mk base (fakeClient devs)).GetDeviceListPaginator realm P) =
        some (.ok pages) ∧
      pages.flatten = devs ∧
      pages.length = (devs.length + P.toNat - 1) / P.toNat ∧
      ∀ pg ∈ pages, pg.length ≤ P.toNat := by
  obtain ⟨pages, h1, h2, h3, h4⟩ := fakeDrive devs P hP fuel
    (pathJoin base ("/v1/" ++ realm ++ "/devices")) [] 0 rfl hN (by omega)
  exact ⟨pages, h1, by simpa using h2, by simpa using h3, h4⟩

/-- Witness for C1's amended statement: 5 devices, page size 2. -/
theorem C1_witness :
    ∃ pages,
      drivePages 6 ((AppEngineService.mk "/appengine"
          (fakeClient ["d1", "d2", "d3", "d4", "d5"])).GetDeviceListPaginator "test" 2) =
        some (.ok pages) ∧
      pages.flatten = ["d1", "d2", "d3", "d4", "d5"] ∧
      pages.length = (List.length ["d1", "d2", "d3", "d4", "d5"] + (2 : Int).toNat - 1) / (2 : Int).toNat ∧
      ∀ pg ∈ pages, pg.length ≤ (2 : Int).toNat :=
  C1_pagination_partition ["d1", "d2", "d3", "d4", "d5"] "/appengine" "test" 2 6
    (by decide) (by decide) (by decide)

/-- C1 counterexample: over a backend holding zero devices, with page size
1, driving to exhaustion performs one page fetch (the initial has-next
flag is true, so one GET is issued and returns an empty page), not
ceil(0/1) = 0 page fetches as the claim demands. -/
theorem C1_counterexample :
    drivePages 3 ((AppEngineService.mk "" (fakeClient [])).GetDeviceListPaginator "r" 1) =
      some (.ok [([] : List String)]) ∧
    [([] : List String)].length ≠ (List.length ([] : List String) + (1 : Int).toNat - 1) / (1 : Int).toNat :=
  ⟨rfl, by decide⟩

/-! ### Lemmas on the `path.Clean` embedding, for the paginator base URL -/

theorem splitSegs_ne_nil (l : List Char) : splitSegs l ≠ [] := by
  cases l with
  | nil => simp [splitSegs]
  | cons c rest =>
    by_cases hc : c = '/'
    · simp [splitSegs, hc]
    · simp only [splitSegs, if_neg hc]
      cases h : splitSegs rest <;> simp

theorem splitSegs_append (l1 l2 : List Char) :
    splitSegs (l1 ++ '/' :: l2) = splitSegs l1 ++ splitSegs l2 := by
  induction l1 with
  | nil => simp [splitSegs]
  | cons c rest ih =>
    by_cases hc : c = '/'
    · simp [splitSegs, hc, ih]
    · simp only [List.cons_append, splitSegs, if_neg hc, List.append_eq]
      rw [ih]
      cases h : splitSegs rest with
      | nil => exact absurd h (splitSegs_ne_nil rest)
      | cons s ss => simp

theorem splitSegs_nosep (l : List Char) (h : '/' ∉ l) : splitSegs l = [l] := by
  induction l with
  | nil => simp [splitSegs]
  | cons c rest ih =>
    have hc : c ≠ '/' := by rintro rfl; exact h (List.mem_cons_self _ _)
    have h' : '/' ∉ rest := fun hm => h (List.mem_cons_of_mem _ hm)
    simp [splitSegs, hc, ih h']

theorem joinSegs_append_ne_nil : ∀ (A t : List (List Char)), A ≠ [] → t ≠ [] →
    joinSegs (A ++ t) = joinSegs A ++ '/' :: joinSegs t := by
  intro A
  induction A with
  | nil => intro t h ht; exact absurd rfl h
  | cons a A ih =>
    intro t _ ht
    cases A with
    | nil =>
      cases t with
      | nil => exact absurd rfl ht
      | cons b B => simp [joinSegs]
    | cons b B =>
      have hrec := ih t (by simp) ht
      show a ++ '/' :: joinSegs (b :: (B ++ t)) = joinSegs (a :: b :: B) ++ '/' :: joinSegs t
      rw [show (b :: (B ++ t)) = (b :: B) ++ t from rfl, hrec]
      show a ++ '/' :: (joinSegs (b :: B) ++ '/' :: joinSegs t) =
        (a ++ '/' :: joinSegs (b :: B)) ++ '/' :: joinSegs t
      simp [List.append_assoc]

theorem cleanStep_push (rooted : Bool) (stack : List (List Char)) (seg : List Char)
    (h1 : seg ≠ []) (h2 : seg ≠ ['.']) (h3 : seg ≠ ['.', '.']) :
    cleanStep rooted stack seg = seg :: stack := by
  simp [cleanStep, h1, h2, h3]

theorem clean_fold_core (segs : List (List Char)) (R : List Char)
    (hR0 : R ≠ []) (hR1 : R ≠ ['.']) (hR2 : R ≠ ['.', '.']) :
    (segs ++ [[], ['v', '1'], R, ['d', 'e', 'v', 'i', 'c', 'e', 's']]).foldl (cleanStep true) [] =
      ['d', 'e', 'v', 'i', 'c', 'e', 's'] :: R :: ['v', '1'] :: segs.foldl (cleanStep true) [] := by
  rw [List.foldl_append]
  simp only [List.foldl_cons, List.foldl_nil]
  rw [show cleanStep true (segs.foldl (cleanStep true) []) [] = segs.foldl (cleanStep true) []
    from by simp [cleanStep]]
  rw [cleanStep_push true _ ['v', '1'] (by decide) (by decide) (by decide)]
  rw [cleanStep_push true _ R hR0 hR1 hR2]
  rw [cleanStep_push true _ ['d', 'e', 'v', 'i', 'c', 'e', 's'] (by decide) (by decide) (by decide)]

theorem pathCleanChars_rooted (cs : List Char) (hne : cs ≠ []) (hhead : cs.head? = some '/') :
    pathCleanChars cs = '/' :: joinSegs (((splitSegs cs).foldl (cleanStep true) []).reverse) := by
  unfold pathCleanChars
  rw [if_neg hne]
  simp [hhead]

theorem splitSegs_sfx (R : List Char) (hRs : '/' ∉ R) :
    splitSegs ('/' :: 'v' :: '1' :: '/' :: (R ++ '/' :: ['d', 'e', 'v', 'i', 'c', 'e', 's'])) =
      [[], ['v', '1'], R, ['d', 'e', 'v', 'i', 'c', 'e', 's']] := by
  have h1 : splitSegs (R ++ '/' :: ['d', 'e', 'v', 'i', 'c', 'e', 's']) =
      [R, ['d', 'e', 'v', 'i', 'c', 'e', 's']] := by
    rw [splitSegs_append, splitSegs_nosep R hRs, splitSegs_nosep _ (by decide)]
    rfl
  simp [splitSegs, h1]

theorem pathJoin_devices_suffix (base realm : String)
    (hbase : base = "" ∨ base.data.head? = some '/')
    (hR0 : realm.data ≠ []) (hRs : '/' ∉ realm.data)
    (hR1 : realm.data ≠ ['.']) (hR2 : realm.data ≠ ['.', '.']) :
    ("/v1/" ++ realm ++ "/devices").data <:+ (pathJoin base ("/v1/" ++ realm ++ "/devices")).data := by
  have hsfx : ("/v1/" ++ realm ++ "/devices").data =
      '/' :: 'v' :: '1' :: '/' :: (realm.data ++ '/' :: ['d', 'e', 'v', 'i', 'c', 'e', 's']) := rfl
  have hsplit := splitSegs_sfx realm.data hRs
  rcases hbase with hb | hb
  · -- empty base: the join is the cleaned suffix, and cleaning fixes it
    subst hb
    have hne : ("/v1/" ++ realm ++ "/devices") ≠ "" := by
      intro he
      have hd := congrArg String.data he
      rw [hsfx] at hd
      simp at hd
    rw [pathJoin, if_pos rfl, if_neg hne]
    show _ <:+ pathCleanChars (("/v1/" ++ realm ++ "/devices").data)
    rw [hsfx, pathCleanChars_rooted _ (by simp) (by simp), hsplit]
    have hcore : List.foldl (cleanStep true) []
        [[], ['v', '1'], realm.data, ['d', 'e', 'v', 'i', 'c', 'e', 's']] =
        [['d', 'e', 'v', 'i', 'c', 'e', 's'], realm.data, ['v', '1']] := by
      simpa using clean_fold_core [] realm.data hR0 hR1 hR2
    rw [hcore]
    simp [joinSegs]
  · -- rooted base
    obtain ⟨bs, hbs⟩ : ∃ bs, base.data = '/' :: bs := by
      cases hbd : base.data with
      | nil => rw [hbd] at hb; simp at hb
      | cons b bs =>
        rw [hbd] at hb
        simp only [List.head?_cons, Option.some.injEq] at hb
        exact ⟨bs, by rw [hb]⟩
    have hbne : base ≠ "" := by
      intro he
      rw [he] at hbs
      simp at hbs
    rw [pathJoin, if_neg hbne]
    show _ <:+ pathCleanChars ((base ++ "/" ++ ("/v1/" ++ realm ++ "/devices")).data)
    have hdata : (base ++ "/" ++ ("/v1/" ++ realm ++ "/devices")).data =
        base.data ++ '/' :: ("/v1/" ++ realm ++ "/devices").data := by
      show (base.data ++ ['/']) ++ ("/v1/" ++ realm ++ "/devices").data = _
      rw [List.append_assoc]
      rfl
    rw [hdata, hsfx]
    have hne2 : (base.data ++ '/' :: '/' :: 'v' :: '1' :: '/' ::
        (realm.data ++ '/' :: ['d', 'e', 'v', 'i', 'c', 'e', 's'])) ≠ [] := by
      simp [hbs]
    have hcs : (base.data ++ '/' :: '/' :: 'v' :: '1' :: '/' ::
        (realm.data ++ '/' :: ['d', 'e', 'v', 'i', 'c', 'e', 's'])).head? = some '/' := by
      rw [hbs]; rfl
    rw [pathCleanChars_rooted _ hne2 hcs]
    rw [splitSegs_append base.data, hsplit]
    rw [clean_fold_core (splitSegs base.data) realm.data hR0 hR1 hR2]
    simp only [List.reverse_cons, List.append_assoc, List.cons_append, List.nil_append]
    cases hA : ((splitSegs base.data).foldl (cleanStep true) []).reverse with
    | nil => simp [joinSegs]
    | cons A0 As =>
      rw [joinSegs_append_ne_nil (A0 :: As) [['v', '1'], realm.data,
        ['d', 'e', 'v', 'i', 'c', 'e', 's']] (by simp) (by simp)]
      refine ⟨'/' :: joinSegs (A0 :: As), ?_⟩
      simp [joinSegs]

theorem string_eq_of_data_eq {s t : String} (h : s.data = t.data) : s = t := by
  cases s; cases t; exact congrArg String.mk h

/-- C5 (amended: the realm must be a single clean path segment — nonempty,
containing no slash, and not `.` or `..` — and the service base path must
be empty or absolute, the shapes Go's `path.Join` cleaning leaves intact):
the paginator returned by `GetDeviceListPaginator` starts Ready: has-next
true, empty query (no continuation token), page size as requested, and a
base URL path ending in `/v1/\x7brealm\x7d/devices`. -/
theorem C5_paginator_initial_state (s : AppEngineService) (realm : String) (P : Int)
    (hbase : s.appEngineURL = "" ∨ s.appEngineURL.data.head? = some '/')
    (h0 : realm ≠ "") (hs : '/' ∉ realm.data) (h1 : realm ≠ ".") (h2 : realm ≠ "..") :
    (s.GetDeviceListPaginator realm P).hasNextPage = true ∧
    (s.GetDeviceListPaginator realm P).nextQuery = [] ∧
    (s.GetDeviceListPaginator realm P).pageSize = P ∧
    ("/v1/" ++ realm ++ "/devices").data <:+ (s.GetDeviceListPaginator realm P).baseURL.data := by
  refine ⟨rfl, rfl, rfl, ?_⟩
  apply pathJoin_devices_suffix s.appEngineURL realm hbase
  · intro hd; exact h0 (string_eq_of_data_eq (by rw [hd]))
  · exact hs
  · intro hd; exact h1 (string_eq_of_data_eq (by rw [hd]))
  · intro hd; exact h2 (string_eq_of_data_eq (by rw [hd]))

/-- Witness for C5's amended statement at realm `test`. -/
theorem C5_witness :
    ((sampleService (errClient "E")).GetDeviceListPaginator "test" 7).hasNextPage = true ∧
    ((sampleService (errClient "E")).GetDeviceListPaginator "test" 7).nextQuery = [] ∧
    ((sampleService (errClient "E")).GetDeviceListPaginator "test" 7).pageSize = 7 ∧
    ("/v1/" ++ "test" ++ "/devices").data <:+
      ((sampleService (errClient "E")).GetDeviceListPaginator "test" 7).baseURL.data :=
  C5_paginator_initial_state (sampleService (errClient "E")) "test" 7
    (Or.inr (by decide)) (by decide) (by decide) (by decide) (by decide)

/-- C5 counterexample: with realm `..` Go's `path.Join` cleans the dot-dot
segment away (the base path becomes `/appengine/devices`), so the base URL
path does not end with `/v1/../devices` as the unrestricted claim
demands. -/
theorem C5_counterexample :
    ¬ (("/v1/" ++ ".." ++ "/devices").data <:+
      ((AppEngineService.mk "/appengine" (errClient "E")).GetDeviceListPaginator ".." 5).baseURL.data) := by
  decide

end AstarteGo
